import Mathlib

/-!
Shallow embedding of the voxel-volume core of the repository.

The repository ships `main_file.cpp`, whose `main` builds a `MyImage3D`,
fills it, writes a few voxels and scans the whole volume for its maximum
value with a triple nested loop.  The header `MyImage3D.h` (the container
itself: `Set`, `FillInWith`, `Index`) is not among the repository's source
files, so the container is modelled from the specification's `VoxelVolume`
description; the scan is embedded from the source loop in `main`.
-/

namespace MyImage3D

/-- Modelled from the spec: the error kinds of the voxel container
(`InvalidDimension`, `OutOfBounds`, `EmptyVolume`). -/
inductive Err where
  | InvalidDimension
  | OutOfBounds
  | EmptyVolume
deriving DecidableEq

/-- Modelled from the spec (the header `MyImage3D.h` is absent from the
repository): an allocated volume.  Three positive extents (depth, rows,
columns) and a dense flat buffer of unsigned samples, one per grid cell;
`none` marks a sample that has not been defined yet (the spec leaves
samples undefined until a fill or a write populates them). -/
structure Volume where
  depth : Nat
  rows : Nat
  cols : Nat
  data : List (Option Nat)
  hlen : data.length = depth * rows * cols
  hpos : 0 < depth ∧ 0 < rows ∧ 0 < cols

/-- The container state: `none` before any allocation, `some vol` after. -/
abbrev State := Option Volume

/-- Flat buffer index of cell `(s, r, c)`: row-major order of the dense
buffer, `(s * rows + r) * cols + c`. -/
def flatIdx (vol : Volume) (s r c : Nat) : Nat :=
  (s * vol.rows + r) * vol.cols + c

/-- The sample stored at cell `(s, r, c)` (coordinates already in range):
`none` when the cell is still undefined. -/
def cell (vol : Volume) (s r c : Nat) : Option Nat :=
  vol.data.getD (flatIdx vol s r c) none

/-- Validity invariant of a coordinate triple, from the spec:
`0 ≤ s < depth ∧ 0 ≤ r < rows ∧ 0 ≤ c < columns`.  Coordinates are
integers, as in the source's `Index(int s, int r, int c)`. -/
abbrev Valid (vol : Volume) (s r c : Int) : Prop :=
  0 ≤ s ∧ s < vol.depth ∧ 0 ≤ r ∧ r < vol.rows ∧ 0 ≤ c ∧ c < vol.cols

/-- Every sample of the volume is defined (populated by fill and/or
writes). -/
def AllDefined (vol : Volume) : Prop :=
  ∀ x ∈ vol.data, x ≠ none

/-- Modelled from the spec: `allocate(depth, rows, cols)`.  Fails with
`InvalidDimension` if any argument is non-positive; otherwise yields a
volume of `depth × rows × cols` undefined samples, replacing any prior
allocation. -/
def allocate (d r c : Int) (_st : State) : Except Err State :=
  if h : d ≤ 0 ∨ r ≤ 0 ∨ c ≤ 0 then
    .error .InvalidDimension
  else
    .ok (some
      { depth := d.toNat, rows := r.toNat, cols := c.toNat
        data := List.replicate (d.toNat * r.toNat * c.toNat) none
        hlen := by simp
        hpos := by omega })

/-- Modelled from the spec: `fill(value)` sets every sample to `value`;
the volume must be allocated. -/
def fill (v : Nat) (st : State) : Except Err State :=
  match st with
  | none => .error .EmptyVolume
  | some vol =>
      .ok (some
        { depth := vol.depth, rows := vol.rows, cols := vol.cols
          data := List.replicate (vol.depth * vol.rows * vol.cols) (some v)
          hlen := by simp
          hpos := vol.hpos })

/-- Modelled from the spec: `at(s, r, c)` read.  Fails with `OutOfBounds`
if any coordinate is outside its axis extent, with `EmptyVolume` before
allocation; otherwise returns the sample at that cell. -/
def atRead (s r c : Int) (st : State) : Except Err (Option Nat) :=
  match st with
  | none => .error .EmptyVolume
  | some vol =>
      if Valid vol s r c then
        .ok (cell vol s.toNat r.toNat c.toNat)
      else
        .error .OutOfBounds

/-- Modelled from the spec: `at(s, r, c) = value` write.  Fails with
`OutOfBounds` if any coordinate is outside its axis extent, with
`EmptyVolume` before allocation; otherwise stores the sample at that
cell. -/
def atWrite (s r c : Int) (v : Nat) (st : State) : Except Err State :=
  match st with
  | none => .error .EmptyVolume
  | some vol =>
      if Valid vol s r c then
        .ok (some
          { depth := vol.depth, rows := vol.rows, cols := vol.cols
            data := vol.data.set (flatIdx vol s.toNat r.toNat c.toNat) (some v)
            hlen := by simp [vol.hlen]
            hpos := vol.hpos })
      else
        .error .OutOfBounds

/-- One comparison of the scan, from the source line
`if(image3d.Index(s,r,c)>maximum) maximum = image3d.Index(s,r,c);`.
A read of a still-undefined sample leaves the running maximum unchanged
(the source requires a fully defined volume, so this case is outside its
precondition). -/
def scanStep (m : Nat) (x : Option Nat) : Nat :=
  match x with
  | some v => if v > m then v else m
  | none => m

/-- Innermost loop of the source scan: `for(int c=0; c<dims_xyz[0]; c++)`. -/
def loopCols (vol : Volume) (s r : Nat) (m : Nat) : Nat :=
  (List.range vol.cols).foldl (fun m c => scanStep m (cell vol s r c)) m

/-- Middle loop of the source scan: `for(int r=0; r<dims_xyz[1]; r++)`. -/
def loopRows (vol : Volume) (s : Nat) (m : Nat) : Nat :=
  (List.range vol.rows).foldl (fun m r => loopCols vol s r m) m

/-- Outer loop of the source scan: `for(int s=0; s<dims_xyz[2]; s++)`. -/
def loopSlices (vol : Volume) (m : Nat) : Nat :=
  (List.range vol.depth).foldl (fun m s => loopRows vol s m) m

/-- Initial candidate of the source scan: `maximum = image3d.Index(0,0,0);`
(the spec requires that cell to be defined; an undefined cell falls back
to `0`, outside the precondition). -/
def scanInit (vol : Volume) : Nat :=
  (cell vol 0 0 0).getD 0

/-- The full exhaustive scan of the source: initial candidate from cell
`(0,0,0)`, then the triple nested loop over every cell. -/
def scan (vol : Volume) : Nat :=
  loopSlices vol (scanInit vol)

/-- `maximum()`: fails with `EmptyVolume` before allocation (modelled from
the spec); on an allocated volume it runs the source's exhaustive scan. -/
def maximum (st : State) : Except Err Nat :=
  match st with
  | none => .error .EmptyVolume
  | some vol => .ok (scan vol)

/-- All samples of the volume, flattened in the loop order of the source
scan (slices outermost, then rows, then columns). -/
def allCells (vol : Volume) : List (Option Nat) :=
  (List.range vol.depth).flatMap (fun s =>
    (List.range vol.rows).flatMap (fun r =>
      (List.range vol.cols).map (fun c => cell vol s r c)))

/-- Sample-definedness is checkable on concrete volumes. -/
instance (vol : Volume) : Decidable (AllDefined vol) :=
  inferInstanceAs (Decidable (∀ x ∈ vol.data, x ≠ none))

/-!  Arithmetic of the flat buffer index. -/

lemma flat_lt {D R C s r c : Nat} (hs : s < D) (hr : r < R) (hc : c < C) :
    (s * R + r) * C + c < D * R * C := by
  have h1 : s * R + r + 1 ≤ D * R := by
    calc s * R + r + 1 ≤ s * R + R := by omega
      _ = (s + 1) * R := by ring
      _ ≤ D * R := Nat.mul_le_mul_right R hs
  calc (s * R + r) * C + c < (s * R + r) * C + C := by omega
    _ = (s * R + r + 1) * C := by ring
    _ ≤ D * R * C := Nat.mul_le_mul_right C h1

lemma addMul_inj {a1 b1 a2 b2 B : Nat} (h1 : b1 < B) (h2 : b2 < B)
    (h : a1 * B + b1 = a2 * B + b2) : a1 = a2 ∧ b1 = b2 := by
  rcases Nat.lt_trichotomy a1 a2 with hlt | heq | hgt
  · nlinarith
  · subst heq
    have := Nat.add_left_cancel h
    exact ⟨rfl, this⟩
  · nlinarith

lemma flat_inj {D R C s1 r1 c1 s2 r2 c2 : Nat}
    (hs1 : s1 < D) (hr1 : r1 < R) (hc1 : c1 < C)
    (hs2 : s2 < D) (hr2 : r2 < R) (hc2 : c2 < C)
    (h : (s1 * R + r1) * C + c1 = (s2 * R + r2) * C + c2) :
    s1 = s2 ∧ r1 = r2 ∧ c1 = c2 := by
  obtain ⟨ha, hcc⟩ := addMul_inj hc1 hc2 h
  obtain ⟨hss, hrr⟩ := addMul_inj hr1 hr2 ha
  exact ⟨hss, hrr, hcc⟩

/-!  Cells and the flat buffer. -/

lemma flatIdx_lt_length (vol : Volume) {s r c : Nat}
    (hs : s < vol.depth) (hr : r < vol.rows) (hc : c < vol.cols) :
    flatIdx vol s r c < vol.data.length := by
  rw [vol.hlen]
  exact flat_lt hs hr hc

lemma cell_eq_getElem (vol : Volume) {s r c : Nat}
    (hs : s < vol.depth) (hr : r < vol.rows) (hc : c < vol.cols) :
    cell vol s r c = vol.data.get ⟨flatIdx vol s r c, flatIdx_lt_length vol hs hr hc⟩ := by
  have hlt := flatIdx_lt_length vol hs hr hc
  simp [cell, List.getD_eq_getElem?_getD, List.getElem?_eq_getElem hlt]

lemma cell_mem_data (vol : Volume) {s r c : Nat}
    (hs : s < vol.depth) (hr : r < vol.rows) (hc : c < vol.cols) :
    cell vol s r c ∈ vol.data := by
  rw [cell_eq_getElem vol hs hr hc]
  exact List.getElem_mem _

lemma cell_defined (vol : Volume) (hdef : AllDefined vol) {s r c : Nat}
    (hs : s < vol.depth) (hr : r < vol.rows) (hc : c < vol.cols) :
    ∃ v, cell vol s r c = some v :=
  Option.ne_none_iff_exists'.1 (hdef _ (cell_mem_data vol hs hr hc))

lemma mem_allCells {vol : Volume} {x : Option Nat} :
    x ∈ allCells vol ↔
      ∃ s r c, s < vol.depth ∧ r < vol.rows ∧ c < vol.cols ∧ cell vol s r c = x := by
  constructor
  · intro hx
    unfold allCells at hx
    rcases List.mem_flatMap.1 hx with ⟨s, hs, hx⟩
    rcases List.mem_flatMap.1 hx with ⟨r, hr, hx⟩
    rcases List.mem_map.1 hx with ⟨c, hc, hx⟩
    exact ⟨s, r, c, List.mem_range.1 hs, List.mem_range.1 hr, List.mem_range.1 hc, hx⟩
  · rintro ⟨s, r, c, hs, hr, hc, hx⟩
    unfold allCells
    exact List.mem_flatMap.2 ⟨s, List.mem_range.2 hs,
      List.mem_flatMap.2 ⟨r, List.mem_range.2 hr,
        List.mem_map.2 ⟨c, List.mem_range.2 hc, hx⟩⟩⟩

/-!  Behaviour of the scan's fold. -/

lemma le_scanStep (m : Nat) (x : Option Nat) : m ≤ scanStep m x := by
  cases x with
  | none => exact le_refl m
  | some v =>
      simp only [scanStep]
      split <;> omega

lemma le_foldl_scanStep : ∀ (l : List (Option Nat)) (m : Nat), m ≤ l.foldl scanStep m
  | [], m => le_refl m
  | x :: l, m =>
      le_trans (le_scanStep m x) (le_foldl_scanStep l (scanStep m x))

lemma foldl_scanStep_le_of_mem :
    ∀ (l : List (Option Nat)) (m v : Nat), some v ∈ l → v ≤ l.foldl scanStep m
  | x :: l, m, v, hv => by
      rcases List.mem_cons.1 hv with hx | hx
      · subst hx
        refine le_trans ?_ (le_foldl_scanStep l (scanStep m (some v)))
        simp only [scanStep]
        split <;> omega
      · exact foldl_scanStep_le_of_mem l (scanStep m x) v hx

lemma foldl_scanStep_le {B : Nat} :
    ∀ (l : List (Option Nat)) (m : Nat), m ≤ B → (∀ v, some v ∈ l → v ≤ B) →
      l.foldl scanStep m ≤ B
  | [], m, hm, _ => hm
  | x :: l, m, hm, hl => by
      refine foldl_scanStep_le l (scanStep m x) ?_ (fun v hv => hl v (List.mem_cons_of_mem x hv))
      cases x with
      | none => exact hm
      | some v =>
          simp only [scanStep]
          split
          · exact hl v (List.mem_cons_self _ _)
          · exact hm

lemma foldl_scanStep_attain :
    ∀ (l : List (Option Nat)) (m : Nat),
      l.foldl scanStep m = m ∨ some (l.foldl scanStep m) ∈ l
  | [], m => Or.inl rfl
  | x :: l, m => by
      rcases foldl_scanStep_attain l (scanStep m x) with h | h
      · rw [List.foldl_cons, h]
        cases x with
        | none => exact Or.inl rfl
        | some v =>
            simp only [scanStep]
            split
            · exact Or.inr (by simp)
            · exact Or.inl rfl
      · exact Or.inr (List.mem_cons_of_mem x (by rw [List.foldl_cons]; exact h))

lemma foldl_scanStep_flatMap {α : Type} (f : α → List (Option Nat)) :
    ∀ (l : List α) (m : Nat),
      (l.flatMap f).foldl scanStep m = l.foldl (fun m x => (f x).foldl scanStep m) m
  | [], _ => rfl
  | x :: l, m => by
      rw [List.flatMap_cons, List.foldl_append, List.foldl_cons,
        foldl_scanStep_flatMap f l]

/-- The nested source loops compute a single fold over all cells in loop
order. -/
lemma scan_eq_foldl (vol : Volume) :
    scan vol = (allCells vol).foldl scanStep (scanInit vol) := by
  rw [scan, allCells, foldl_scanStep_flatMap]
  simp only [foldl_scanStep_flatMap, List.foldl_map]
  rfl

/-!  The scan computes the maximum of the defined samples. -/

lemma scan_le (vol : Volume) {B : Nat} (h : ∀ v, some v ∈ vol.data → v ≤ B) :
    scan vol ≤ B := by
  obtain ⟨hd, hr, hc⟩ := vol.hpos
  rw [scan_eq_foldl]
  refine foldl_scanStep_le _ _ ?_ ?_
  · rw [scanInit]
    cases hx : cell vol 0 0 0 with
    | none => simp
    | some v =>
        simpa using h v (hx ▸ cell_mem_data vol hd hr hc)
  · intro v hv
    rcases mem_allCells.1 hv with ⟨s, r, c, hs, hrr, hcc, hcell⟩
    exact h v (hcell ▸ cell_mem_data vol hs hrr hcc)

lemma le_scan (vol : Volume) {s r c v : Nat}
    (hs : s < vol.depth) (hr : r < vol.rows) (hc : c < vol.cols)
    (hcell : cell vol s r c = some v) : v ≤ scan vol := by
  rw [scan_eq_foldl]
  exact foldl_scanStep_le_of_mem _ _ v (mem_allCells.2 ⟨s, r, c, hs, hr, hc, hcell⟩)

lemma scan_attained (vol : Volume) (hdef : AllDefined vol) :
    ∃ s r c, s < vol.depth ∧ r < vol.rows ∧ c < vol.cols ∧
      cell vol s r c = some (scan vol) := by
  obtain ⟨hd, hr, hc⟩ := vol.hpos
  have h := foldl_scanStep_attain (allCells vol) (scanInit vol)
  rw [← scan_eq_foldl] at h
  rcases h with h | h
  · obtain ⟨v0, hv0⟩ := cell_defined vol hdef hd hr hc
    refine ⟨0, 0, 0, hd, hr, hc, ?_⟩
    rw [hv0, h, scanInit, hv0]
    rfl
  · exact mem_allCells.1 h

/-!  Operations as a small step language, to speak about the state an
operation leaves behind (in particular on failure). -/

/-- The operations of the container. -/
inductive Op where
  | alloc (d r c : Int)
  | fillAll (v : Nat)
  | write (s r c : Int) (v : Nat)
  | read (s r c : Int)
  | maxQuery

/-- The state transformer of each operation; reads and the maximum query
keep the state they were given. -/
def applyOp : Op → State → Except Err State
  | .alloc d r c, st => allocate d r c st
  | .fillAll v, st => fill v st
  | .write s r c v, st => atWrite s r c v st
  | .read s r c, st => (atRead s r c st).map (fun _ => st)
  | .maxQuery, st => (maximum st).map (fun _ => st)

/-- Run one operation: on success the new state, on failure the reported
error together with the state the container is left in. -/
def runOp (op : Op) (st : State) : Option Err × State :=
  match applyOp op st with
  | .ok st2 => (none, st2)
  | .error e => (some e, st)

/-!  The alternative scan formulation of the spec's open question: start
the running maximum from the first cell inside the loop instead of
initializing it before the loop. -/

/-- Modelled from the spec: the reimplementation the spec's open question
allows, scanning the cells in the same loop order but taking the first
cell of the traversal as the initial running maximum instead of reading
cell `(0,0,0)` before the loop. -/
def scanAlt (vol : Volume) : Nat :=
  match allCells vol with
  | [] => 0
  | x :: rest => rest.foldl scanStep (x.getD 0)

lemma scanStep_getD_self (x : Option Nat) : scanStep (x.getD 0) x = x.getD 0 := by
  cases x with
  | none => rfl
  | some v =>
      simp only [scanStep, Option.getD_some]
      split <;> omega

lemma allCells_cons (vol : Volume) :
    ∃ rest, allCells vol = cell vol 0 0 0 :: rest := by
  obtain ⟨hd, hr, hc⟩ := vol.hpos
  obtain ⟨d2, hd2⟩ : ∃ d2, vol.depth = d2 + 1 := ⟨vol.depth - 1, by omega⟩
  obtain ⟨r2, hr2⟩ : ∃ r2, vol.rows = r2 + 1 := ⟨vol.rows - 1, by omega⟩
  obtain ⟨c2, hc2⟩ : ∃ c2, vol.cols = c2 + 1 := ⟨vol.cols - 1, by omega⟩
  unfold allCells
  rw [hd2, hr2, hc2]
  simp only [List.range_succ_eq_map, List.flatMap_cons, List.map_cons,
    List.cons_append]
  exact ⟨_, rfl⟩

/-!  Concrete volumes for the closed instances. -/

/-- A one-cell volume holding the sample `5`. -/
def w1 : Volume :=
  { depth := 1, rows := 1, cols := 1
    data := [some 5]
    hlen := by decide
    hpos := by decide }

/-- A `10 × 10 × 10` volume fresh from allocation: every sample still
undefined. -/
def vol10 : Volume :=
  { depth := 10, rows := 10, cols := 10
    data := List.replicate (10 * 10 * 10) none
    hlen := by simp only [List.length_replicate]
    hpos := by decide }

/-- The state reached by the scenario of the source `main`:
`allocate(10,10,10); fill(0);` then the six voxel writes. -/
def scenario : Except Err State :=
  (((((((allocate 10 10 10 none).bind (fill 0)).bind
    (atWrite 1 2 3 15)).bind (atWrite 4 2 2 5)).bind (atWrite 8 6 3 7)).bind
    (atWrite 5 6 8 20000)).bind (atWrite 3 3 3 1)).bind (atWrite 1 1 1 15)

/-- The volume the scenario reaches, written out: a `10 × 10 × 10` buffer
filled with `0`, then the six written cells at their flat indices. -/
def scenarioVol : Volume :=
  { depth := 10, rows := 10, cols := 10
    data := (((((((List.replicate (10 * 10 * 10) (some 0)).set
      ((1 * 10 + 2) * 10 + 3) (some 15)).set
      ((4 * 10 + 2) * 10 + 2) (some 5)).set
      ((8 * 10 + 6) * 10 + 3) (some 7)).set
      ((5 * 10 + 6) * 10 + 8) (some 20000)).set
      ((3 * 10 + 3) * 10 + 3) (some 1)).set
      ((1 * 10 + 1) * 10 + 1) (some 15))
    hlen := by simp only [List.length_set, List.length_replicate]
    hpos := by decide }

lemma scenario_eq : scenario = .ok (some scenarioVol) := by rfl

lemma scenarioVol_data_le {w : Nat} (hx : some w ∈ scenarioVol.data) : w ≤ 20000 := by
  simp only [scenarioVol] at hx
  rcases List.mem_or_eq_of_mem_set hx with hx | heq
  · rcases List.mem_or_eq_of_mem_set hx with hx | heq
    · rcases List.mem_or_eq_of_mem_set hx with hx | heq
      · rcases List.mem_or_eq_of_mem_set hx with hx | heq
        · rcases List.mem_or_eq_of_mem_set hx with hx | heq
          · rcases List.mem_or_eq_of_mem_set hx with hx | heq
            · have heq := List.eq_of_mem_replicate hx
              simp only [Option.some.injEq] at heq
              omega
            · simp only [Option.some.injEq] at heq
              omega
          · simp only [Option.some.injEq] at heq
            omega
        · simp only [Option.some.injEq] at heq
          omega
      · simp only [Option.some.injEq] at heq
        omega
    · simp only [Option.some.injEq] at heq
      omega
  · simp only [Option.some.injEq] at heq
    omega

set_option maxRecDepth 10000 in
lemma scenarioVol_cell_20000 : cell scenarioVol 5 6 8 = some 20000 := by decide

lemma scan_scenarioVol : scan scenarioVol = 20000 := by
  apply Nat.le_antisymm
  · exact scan_le scenarioVol (fun v hv => scenarioVol_data_le hv)
  · exact le_scan scenarioVol (by decide) (by decide) (by decide) scenarioVol_cell_20000

/-!  The claims. -/

/-- C1: For every allocated and fully defined volume, `maximum()` returns
the largest sample value across all depth×rows×cols cells — the returned
value is itself stored at some valid cell, and no stored value is larger —
so in particular it never returns a value strictly greater than every
value stored in the volume. -/
theorem C1_maximum_returns_largest (vol : Volume) (hdef : AllDefined vol) :
    maximum (some vol) = .ok (scan vol) ∧
    (∃ s r c, s < vol.depth ∧ r < vol.rows ∧ c < vol.cols ∧
      cell vol s r c = some (scan vol)) ∧
    (∀ s r c v, s < vol.depth → r < vol.rows → c < vol.cols →
      cell vol s r c = some v → v ≤ scan vol) :=
  ⟨rfl, scan_attained vol hdef,
    fun _ _ _ _ hs hr hc hcell => le_scan vol hs hr hc hcell⟩

/-- Closed instance of C1 on a concrete one-cell volume. -/
theorem C1_witness :
    AllDefined w1 ∧
    (maximum (some w1) = .ok (scan w1) ∧
    (∃ s r c, s < w1.depth ∧ r < w1.rows ∧ c < w1.cols ∧
      cell w1 s r c = some (scan w1)) ∧
    (∀ s r c v, s < w1.depth → r < w1.rows → c < w1.cols →
      cell w1 s r c = some v → v ≤ scan w1)) :=
  ⟨by decide, C1_maximum_returns_largest w1 (by decide)⟩

/-- C2: The scenario of the source `main` — `allocate(10,10,10)`,
`fill(0)`, then writing 15 at (1,2,3), 5 at (4,2,2), 7 at (8,6,3),
20000 at (5,6,8), 1 at (3,3,3) and 15 at (1,1,1) — makes `maximum()`
return 20000. -/
theorem C2_scenario_maximum : scenario.bind maximum = .ok 20000 := by
  rw [scenario_eq]
  show maximum (some scenarioVol) = .ok 20000
  rw [show maximum (some scenarioVol) = .ok (scan scenarioVol) from rfl,
    scan_scenarioVol]

/-- C3: For all positive dimensions and every value `v`, `allocate`
followed by `fill v` yields a volume reading `v` at every valid
coordinate triple. -/
theorem C3_allocate_fill_at (d r c : Int) (v : Nat) (st : State)
    (hd : 0 < d) (hr : 0 < r) (hc : 0 < c) :
    ∃ vol : Volume, (allocate d r c st).bind (fill v) = .ok (some vol) ∧
      ∀ s t u : Int, Valid vol s t u → atRead s t u (some vol) = .ok (some v) := by
  have hnot : ¬(d ≤ 0 ∨ r ≤ 0 ∨ c ≤ 0) := by omega
  refine ⟨⟨d.toNat, r.toNat, c.toNat,
    List.replicate (d.toNat * r.toNat * c.toNat) (some v),
    by simp, by omega⟩, ?_, ?_⟩
  · unfold allocate
    rw [dif_neg hnot]
    rfl
  · intro s t u hv
    obtain ⟨hs0, hsd, ht0, htr, hu0, huc⟩ := hv
    simp only at hsd htr huc
    have hlt : (s.toNat * r.toNat + t.toNat) * c.toNat + u.toNat <
        d.toNat * r.toNat * c.toNat :=
      flat_lt (by omega) (by omega) (by omega)
    simp only [atRead]
    rw [if_pos (⟨hs0, hsd, ht0, htr, hu0, huc⟩ :
      Valid ⟨d.toNat, r.toNat, c.toNat, _, by simp, by omega⟩ s t u)]
    simp [cell, flatIdx, List.getD_eq_getElem?_getD, List.getElem?_replicate, hlt]

/-- Closed instance of C3: a `2 × 3 × 4` volume filled with `9`. -/
theorem C3_witness :
    (0 : Int) < 2 ∧ (0 : Int) < 3 ∧ (0 : Int) < 4 ∧
    (∃ vol : Volume, (allocate 2 3 4 none).bind (fill 9) = .ok (some vol) ∧
      ∀ s t u : Int, Valid vol s t u → atRead s t u (some vol) = .ok (some 9)) :=
  ⟨by decide, by decide, by decide,
    C3_allocate_fill_at 2 3 4 9 none (by decide) (by decide) (by decide)⟩

/-- C4: Writing `v` at a valid cell and immediately reading it back
returns `v`; every other cell of the volume reads unchanged, and the
dimensions are unchanged. -/
theorem C4_write_read_frame (vol : Volume) (s r c : Int) (v : Nat)
    (h : Valid vol s r c) :
    ∃ vol2 : Volume, atWrite s r c v (some vol) = .ok (some vol2) ∧
      atRead s r c (some vol2) = .ok (some v) ∧
      (∀ s2 r2 c2 : Int, Valid vol s2 r2 c2 → ¬(s2 = s ∧ r2 = r ∧ c2 = c) →
        atRead s2 r2 c2 (some vol2) = atRead s2 r2 c2 (some vol)) ∧
      vol2.depth = vol.depth ∧ vol2.rows = vol.rows ∧ vol2.cols = vol.cols := by
  obtain ⟨hs0, hsd, hr0, hrr, hc0, hcc⟩ := h
  have hsd2 : s.toNat < vol.depth := by omega
  have hrr2 : r.toNat < vol.rows := by omega
  have hcc2 : c.toNat < vol.cols := by omega
  have hlt : (s.toNat * vol.rows + r.toNat) * vol.cols + c.toNat <
      vol.data.length := by
    rw [vol.hlen]
    exact flat_lt hsd2 hrr2 hcc2
  refine ⟨⟨vol.depth, vol.rows, vol.cols,
    vol.data.set (flatIdx vol s.toNat r.toNat c.toNat) (some v),
    by simp [vol.hlen], vol.hpos⟩, ?_, ?_, ?_, rfl, rfl, rfl⟩
  · simp only [atWrite]
    rw [if_pos (⟨hs0, hsd, hr0, hrr, hc0, hcc⟩ : Valid vol s r c)]
  · simp only [atRead]
    rw [if_pos (⟨hs0, hsd, hr0, hrr, hc0, hcc⟩ : Valid _ s r c)]
    simp only [cell, flatIdx]
    rw [List.getD_eq_getElem?_getD]
    simp [List.getElem?_set_self', List.getElem?_eq_getElem hlt]
  · intro s2 r2 c2 h2 hne
    obtain ⟨h20, h2d, h21, h2r, h22, h2c⟩ := h2
    have h2d2 : s2.toNat < vol.depth := by omega
    have h2r2 : r2.toNat < vol.rows := by omega
    have h2c2 : c2.toNat < vol.cols := by omega
    simp only [atRead]
    rw [if_pos (⟨h20, h2d, h21, h2r, h22, h2c⟩ : Valid _ s2 r2 c2),
      if_pos (⟨h20, h2d, h21, h2r, h22, h2c⟩ : Valid vol s2 r2 c2)]
    congr 1
    have hne2 : (s.toNat * vol.rows + r.toNat) * vol.cols + c.toNat ≠
        (s2.toNat * vol.rows + r2.toNat) * vol.cols + c2.toNat := by
      intro heq
      obtain ⟨he1, he2, he3⟩ := flat_inj hsd2 hrr2 hcc2 h2d2 h2r2 h2c2 heq
      exact hne ⟨by omega, by omega, by omega⟩
    simp only [cell, flatIdx]
    rw [List.getD_eq_getElem?_getD, List.getD_eq_getElem?_getD,
      List.getElem?_set_ne hne2]

/-- Closed instance of C4 on a concrete one-cell volume. -/
theorem C4_witness :
    Valid w1 0 0 0 ∧
    (∃ vol2 : Volume, atWrite 0 0 0 7 (some w1) = .ok (some vol2) ∧
      atRead 0 0 0 (some vol2) = .ok (some 7) ∧
      (∀ s2 r2 c2 : Int, Valid w1 s2 r2 c2 → ¬(s2 = 0 ∧ r2 = 0 ∧ c2 = 0) →
        atRead s2 r2 c2 (some vol2) = atRead s2 r2 c2 (some w1)) ∧
      vol2.depth = w1.depth ∧ vol2.rows = w1.rows ∧ vol2.cols = w1.cols) :=
  ⟨by decide, C4_write_read_frame w1 0 0 0 7 (by decide)⟩

/-- C5: On an allocated volume, both the read and the write form of
`at(s, r, c)` fail with `OutOfBounds` whenever any coordinate is outside
its axis extent. -/
theorem C5_out_of_bounds (vol : Volume) (s r c : Int) (h : ¬ Valid vol s r c) :
    atRead s r c (some vol) = .error .OutOfBounds ∧
    ∀ v, atWrite s r c v (some vol) = .error .OutOfBounds := by
  constructor
  · simp only [atRead]
    rw [if_neg h]
  · intro v
    simp only [atWrite]
    rw [if_neg h]

/-- Closed instance of C5: `at(10, 0, 0)` on a volume allocated as
`(10,10,10)` fails with `OutOfBounds` (the index equals the extent). -/
theorem C5_witness :
    ¬ Valid vol10 10 0 0 ∧
    (atRead 10 0 0 (some vol10) = .error .OutOfBounds ∧
    ∀ v, atWrite 10 0 0 v (some vol10) = .error .OutOfBounds) :=
  ⟨by decide, C5_out_of_bounds vol10 10 0 0 (by decide)⟩

/-- C6: `maximum()` on a never-allocated volume (the container state
before any allocation) fails with `EmptyVolume`. -/
theorem C6_maximum_empty : maximum none = .error .EmptyVolume := rfl

/-- C7: `allocate` fails with `InvalidDimension` exactly when one of the
three arguments is non-positive; the outcome ignores (discards) any prior
state; for positive arguments it yields a `depth × rows × cols` volume of
fresh undefined samples. -/
theorem C7_allocate (d r c : Int) (st st2 : State) :
    (allocate d r c st = .error .InvalidDimension ↔ (d ≤ 0 ∨ r ≤ 0 ∨ c ≤ 0)) ∧
    allocate d r c st = allocate d r c st2 ∧
    (0 < d → 0 < r → 0 < c → ∃ vol : Volume,
      allocate d r c st = .ok (some vol) ∧
      vol.depth = d.toNat ∧ vol.rows = r.toNat ∧ vol.cols = c.toNat ∧
      vol.data = List.replicate (d.toNat * r.toNat * c.toNat) none) := by
  refine ⟨⟨fun h => ?_, fun h => ?_⟩, rfl, fun hd hr hc => ?_⟩
  · by_contra hne
    unfold allocate at h
    rw [dif_neg hne] at h
    cases h
  · unfold allocate
    rw [dif_pos h]
  · have hnot : ¬(d ≤ 0 ∨ r ≤ 0 ∨ c ≤ 0) := by omega
    refine ⟨⟨d.toNat, r.toNat, c.toNat,
      List.replicate (d.toNat * r.toNat * c.toNat) none, by simp, by omega⟩,
      ?_, rfl, rfl, rfl, rfl⟩
    unfold allocate
    rw [dif_neg hnot]

/-- Closed instance of C7: `allocate(0, 5, 5)` fails with
`InvalidDimension`. -/
theorem C7_witness : allocate 0 5 5 none = .error .InvalidDimension :=
  (C7_allocate 0 5 5 none none).1.2 (by decide)

/-- C8: Every failing operation (`InvalidDimension`, `OutOfBounds`,
`EmptyVolume`) aborts only the requested operation: whenever running an
operation reports an error, the container is left in exactly the state it
had before the call. -/
theorem C8_failure_preserves_state (op : Op) (st : State) (e : Err)
    (st2 : State) (h : runOp op st = (some e, st2)) : st2 = st := by
  unfold runOp at h
  cases happ : applyOp op st with
  | ok st3 =>
      rw [happ] at h
      simp at h
  | error e2 =>
      rw [happ] at h
      obtain ⟨-, h2⟩ := Prod.mk.injEq .. ▸ h
      exact h2.symm

/-- Closed instance of C8: the failing `allocate(0, 5, 5)` on the
never-allocated state leaves that state in place. -/
theorem C8_witness :
    runOp (.alloc 0 5 5) none = (some .InvalidDimension, none) ∧
    (none : State) = none :=
  ⟨rfl, C8_failure_preserves_state (.alloc 0 5 5) none .InvalidDimension none rfl⟩

/-- C9: On every allocated, fully defined volume, the reference scan
(running maximum initialized from cell (0,0,0) before the loop, the loop
then revisiting (0,0,0)) equals the scan that starts from the first cell
inside the loop: the redundant initialization is behaviourally invisible. -/
theorem C9_scan_eq_scanAlt (vol : Volume) (hdef : AllDefined vol) :
    scan vol = scanAlt vol := by
  obtain ⟨rest, hcons⟩ := allCells_cons vol
  have h2 : scanAlt vol = rest.foldl scanStep ((cell vol 0 0 0).getD 0) := by
    unfold scanAlt
    rw [hcons]
  rw [scan_eq_foldl, hcons, h2, List.foldl_cons, scanInit, scanStep_getD_self]

/-- Closed instance of C9 on a concrete one-cell volume. -/
theorem C9_witness : AllDefined w1 ∧ scan w1 = scanAlt w1 :=
  ⟨by decide, C9_scan_eq_scanAlt w1 (by decide)⟩

/-- C10: `maximum()` is read-only — running the maximum query on an
allocated, fully defined volume reports no error and leaves the state
exactly as it was, so every sample at every valid coordinate reads the
same value as before the call and the dimensions are unchanged. -/
theorem C10_maximum_read_only (vol : Volume) (hdef : AllDefined vol) :
    runOp .maxQuery (some vol) = (none, some vol) ∧
    ∀ s r c : Int, Valid vol s r c →
      atRead s r c (runOp .maxQuery (some vol)).2 = atRead s r c (some vol) :=
  ⟨rfl, fun _ _ _ _ => rfl⟩

/-- Closed instance of C10 on a concrete one-cell volume. -/
theorem C10_witness :
    AllDefined w1 ∧
    (runOp .maxQuery (some w1) = (none, some w1) ∧
    ∀ s r c : Int, Valid w1 s r c →
      atRead s r c (runOp .maxQuery (some w1)).2 = atRead s r c (some w1)) :=
  ⟨by decide, C10_maximum_read_only w1 (by decide)⟩

end MyImage3D
